import Mathlib

/-!
Formal model of the quiz-buzzer coordination core of src/server.js.

The authoritative server state consists of the team registry (the JS object
teams, modelled as an association list in insertion order, since JS object
keys enumerate in insertion order and assignment to an existing key replaces
in place), the ranked buzz list, and the questionActive flag.  Each socket
handler is translated as a pure function from the state (plus the event
payload and, for addTeam, the environment inputs consumed by generateId)
to the new state together with the list of messages emitted, tagged by
whether they go to the originating socket only or are broadcast to all.
-/

namespace QuizBuzzer

/-- Team record stored in the registry: teams[id] = { id, name, color }. -/
structure Team where
  id : String
  name : String
  color : String
deriving DecidableEq, Repr

/-- Entry of the ranked list: { teamId, teamName, color, position }.  The
teamName and color fields hold the JS values team.name and team.color read
from whatever teams[tid] returned; they are undefined (none) when that value
came from the prototype chain rather than a registry record. -/
structure BuzzEntry where
  teamId : String
  teamName : Option String
  color : Option String
  position : Nat
deriving DecidableEq, Repr

/-- The authoritative global state: teams, ranked, questionActive. -/
structure ServerState where
  teams : List (String × Team)
  ranked : List BuzzEntry
  questionActive : Bool
deriving DecidableEq, Repr

/-- Initial state: const teams = {}; let ranked = []; let questionActive = false. -/
def initState : ServerState :=
  { teams := [], ranked := [], questionActive := false }

/-- JS falsiness of a string-valued field that may be absent: undefined and
the empty string are falsy, every other string is truthy. -/
def strFalsy : Option String → Bool
  | none => true
  | some s => s == ""

/-- Own-key lookup on the registry object: the Team record stored under an
own property inserted by the addTeam handler, if any. -/
def lookupTeam : List (String × Team) → String → Option Team
  | [], _ => none
  | (k, v) :: rest, tid => if k == tid then some v else lookupTeam rest tid

/-- Own property names of Object.prototype, the prototype of the plain
object const teams = {}: a property read for any of these keys walks the
prototype chain and returns a truthy inherited value even when the key was
never inserted into the registry. -/
def protoKeys : List String :=
  [("constructor"), ("hasOwnProperty"), ("isPrototypeOf"), ("propertyIsEnumerable"),
   ("toLocaleString"), ("toString"), ("valueOf"),
   ("__defineGetter__"), ("__defineSetter__"), ("__lookupGetter__"), ("__lookupSetter__"),
   ("__proto__")]

/-- The .name property of the inherited value read for a prototype key: the
constructor key reads the Object function (whose .name is the string Object),
the __proto__ key reads Object.prototype (whose .name is undefined), and
every other key reads a method function named like the key. -/
def protoMemberName (k : String) : Option String :=
  if k == ("__proto__") then none
  else if k == ("constructor") then some ("Object")
  else some k

/-- The JS value bound by const team = teams[tid] when it is truthy, reduced
to the two properties the handler reads from it: team.name and team.color.
Both are defined strings for a registry record; for an inherited
Object.prototype member the color (and, for __proto__, the name) is
undefined. -/
structure JsTeam where
  name : Option String
  color : Option String
deriving DecidableEq, Repr

/-- The property read teams[tid] as JavaScript performs it on the plain
object const teams = {}: an own key inserted by addTeam yields its record;
otherwise a key of Object.prototype yields the truthy inherited member via
the prototype chain; every other key reads undefined (none). -/
def readTeams (teams : List (String × Team)) (tid : String) : Option JsTeam :=
  match lookupTeam teams tid with
  | some t => some { name := some t.name, color := some t.color }
  | none =>
    if protoKeys.contains tid then some { name := protoMemberName tid, color := none }
    else none

/-- Property assignment teams[id] = tm on the registry object: replaces in
place when the key exists, otherwise appends (JS insertion order). -/
def insertTeam : List (String × Team) → String → Team → List (String × Team)
  | [], id, tm => [(id, tm)]
  | (k, v) :: rest, id, tm =>
    if k == id then (id, tm) :: rest else (k, v) :: insertTeam rest id tm

/-- Base-36 digit character as produced by Number.prototype.toString(36):
digits 0-9 then lowercase a-z. -/
def base36Char (d : Nat) : Char :=
  if d < 10 then Char.ofNat (48 + d) else Char.ofNat (97 + (d - 10))

/-- Little-endian base-36 digit list of a natural number (empty for 0). -/
def natToB36LE (n : Nat) : List Char :=
  if h : n = 0 then []
  else base36Char (n % 36) :: natToB36LE (n / 36)
termination_by n
decreasing_by exact Nat.div_lt_self (Nat.pos_of_ne_zero h) (by norm_num)

/-- Base-36 rendering of a natural number, as Number.prototype.toString(36)
produces for the integer Date.now() value. -/
def natToBase36 (n : Nat) : String :=
  if n = 0 then ("0") else String.mk (natToB36LE n).reverse

/-- The id generator: Date.now().toString(36) + "-" + Math.random().toString(36).slice(2, 8).
The current time is modelled by the natural number t and the random suffix by
the string r, both supplied by the environment at each call. -/
def generateId (t : Nat) (r : String) : String :=
  natToBase36 t ++ "-" ++ r

/-- Destination of an emitted message: socket.emit goes to the originating
connection only, io.emit broadcasts to every connection. -/
inductive Target where
  | toSender
  | broadcast
deriving DecidableEq, Repr

/-- Outbound socket messages of the server. -/
inductive Msg where
  | teamListUpdate (teams : List (String × Team))
  | buzzerResult (ranked : List BuzzEntry)
  | questionStarted
  | questionReset
deriving DecidableEq, Repr

/-- Payload of the addTeam event: { name, color } with possibly absent fields. -/
structure AddTeamPayload where
  name : Option String
  color : Option String
deriving DecidableEq, Repr

/-- Payload of the buzzerPress event: { tid }. -/
structure BuzzPayload where
  tid : Option String
deriving DecidableEq, Repr

/-- Payload of the register event: { role, tid }. -/
structure RegisterPayload where
  role : Option String
  tid : Option String
deriving DecidableEq, Repr

/-- Per-connection metadata socket.meta = { role, teamId }. -/
structure ConnMeta where
  role : Option String
  teamId : Option String
deriving DecidableEq, Repr

/-- Outcome of a buzzerPress event, identifying which branch of the handler
fired (each rejecting branch is a distinct early return with its own log). -/
inductive BuzzResult where
  | malformedPayload
  | unknownTeam
  | roundNotActive
  | duplicateBuzz
  | accepted (position : Nat)
deriving DecidableEq, Repr

/-- Whether a buzz outcome is the accepting one. -/
def BuzzResult.isAccepted : BuzzResult → Bool
  | accepted _ => true
  | _ => false

/-- The register handler: stores role (defaulting falsy role to "guest") and,
for role "team" with truthy tid, the team id into socket.meta; then sends the
registering socket the team list, the ranking, and the round-phase signal.
Authoritative state is untouched. -/
def handleRegister (s : ServerState) (meta : ConnMeta) (payload : Option RegisterPayload) :
    ServerState × ConnMeta × List (Target × Msg) :=
  let p := payload.getD { role := none, tid := none }
  let role := if strFalsy p.role then ("guest") else p.role.getD ("")
  let meta1 := { meta with role := some role }
  let meta2 := if role == "team" && !(strFalsy p.tid) then { meta1 with teamId := p.tid } else meta1
  (s, meta2,
    [(Target.toSender, Msg.teamListUpdate s.teams),
     (Target.toSender, Msg.buzzerResult s.ranked),
     (Target.toSender, if s.questionActive then Msg.questionStarted else Msg.questionReset)])

/-- The addTeam handler: if (!data || !data.name) return; otherwise insert a
fresh team under a generated id and broadcast the team list.  t and r are the
environment inputs consumed by generateId at this call. -/
def handleAddTeam (s : ServerState) (data : Option AddTeamPayload) (t : Nat) (r : String) :
    ServerState × List (Target × Msg) :=
  match data with
  | none => (s, [])
  | some d =>
    if strFalsy d.name then (s, [])
    else
      let id := generateId t r
      let team : Team :=
        { id := id, name := d.name.getD (""),
          color := if strFalsy d.color then ("#000") else d.color.getD ("") }
      let s' := { s with teams := insertTeam s.teams id team }
      (s', [(Target.broadcast, Msg.teamListUpdate s'.teams)])

/-- The clearAllTeams handler: delete every key of teams, ranked = [],
questionActive = false, then broadcast team list, questionReset, ranking. -/
def handleClearAllTeams (s : ServerState) : ServerState × List (Target × Msg) :=
  let s' : ServerState := { teams := [], ranked := [], questionActive := false }
  (s',
    [(Target.broadcast, Msg.teamListUpdate s'.teams),
     (Target.broadcast, Msg.questionReset),
     (Target.broadcast, Msg.buzzerResult s'.ranked)])

/-- The startQuestion handler: questionActive = true; ranked = []; broadcast
questionStarted and the (now empty) ranking. -/
def handleStartQuestion (s : ServerState) : ServerState × List (Target × Msg) :=
  let s' := { s with questionActive := true, ranked := ([] : List BuzzEntry) }
  (s', [(Target.broadcast, Msg.questionStarted), (Target.broadcast, Msg.buzzerResult s'.ranked)])

/-- The resetQuestion handler: questionActive = false; ranked = []; broadcast
questionReset and the (now empty) ranking. -/
def handleResetQuestion (s : ServerState) : ServerState × List (Target × Msg) :=
  let s' := { s with questionActive := false, ranked := ([] : List BuzzEntry) }
  (s', [(Target.broadcast, Msg.questionReset), (Target.broadcast, Msg.buzzerResult s'.ranked)])

/-- The buzzerPress handler, checks in source order: falsy payload or tid,
falsy property read teams[tid] (the if (!team) test, which an inherited
Object.prototype key passes), question not active, duplicate entry; otherwise
append an entry at position ranked.length + 1 snapshotting team.name and
team.color of the read value and broadcast the updated ranking. -/
def handleBuzzerPress (s : ServerState) (data : Option BuzzPayload) :
    BuzzResult × ServerState × List (Target × Msg) :=
  match data with
  | none => (BuzzResult.malformedPayload, s, [])
  | some d =>
    if strFalsy d.tid then (BuzzResult.malformedPayload, s, [])
    else
      let tid := d.tid.getD ("")
      match readTeams s.teams tid with
      | none => (BuzzResult.unknownTeam, s, [])
      | some team =>
        if !s.questionActive then (BuzzResult.roundNotActive, s, [])
        else if (s.ranked.find? (fun e => e.teamId == tid)).isSome then
          (BuzzResult.duplicateBuzz, s, [])
        else
          let position := s.ranked.length + 1
          let item : BuzzEntry :=
            { teamId := tid, teamName := team.name, color := team.color, position := position }
          let s' := { s with ranked := s.ranked ++ [item] }
          (BuzzResult.accepted position, s', [(Target.broadcast, Msg.buzzerResult s'.ranked)])

/-- Inbound socket events with their payloads; addTeam additionally carries
the environment inputs its generateId call consumes, and register carries the
metadata of the originating connection. -/
inductive Event where
  | register (meta : ConnMeta) (payload : Option RegisterPayload)
  | addTeam (data : Option AddTeamPayload) (t : Nat) (r : String)
  | clearAllTeams
  | startQuestion
  | resetQuestion
  | buzzerPress (data : Option BuzzPayload)
deriving DecidableEq, Repr

/-- One step of the serialized event loop: the authoritative state after
dispatching a single event. -/
def step (s : ServerState) : Event → ServerState
  | .register meta payload => (handleRegister s meta payload).1
  | .addTeam data t r => (handleAddTeam s data t r).1
  | .clearAllTeams => (handleClearAllTeams s).1
  | .startQuestion => (handleStartQuestion s).1
  | .resetQuestion => (handleResetQuestion s).1
  | .buzzerPress data => (handleBuzzerPress s data).2.1

/-- State reached from the initial state by a sequence of events. -/
def run (evs : List Event) : ServerState := evs.foldl step initState

/-- Specification-side rendering of the submitBuzz algorithm of spec section
4.3, written from the spec text (checks in the stated order: UnknownTeam,
RoundNotActive, DuplicateBuzz, then accept at position = count + 1 with a
snapshot of the team record), for comparison against handleBuzzerPress. -/
def submitBuzzSpec (s : ServerState) (teamId : String) : BuzzResult × ServerState :=
  match lookupTeam s.teams teamId with
  | none => (BuzzResult.unknownTeam, s)
  | some team =>
    if !s.questionActive then (BuzzResult.roundNotActive, s)
    else if s.ranked.any (fun e => e.teamId == teamId) then (BuzzResult.duplicateBuzz, s)
    else
      let position := s.ranked.length + 1
      (BuzzResult.accepted position,
        { s with ranked := s.ranked ++
            [{ teamId := teamId, teamName := some team.name, color := some team.color,
               position := position }] })

/-- One addTeam call with a valid (non-empty) name: the payload fields
together with the environment inputs its generateId call consumes. -/
structure AddCall where
  name : String
  color : Option String
  time : Nat
  rand : String
deriving DecidableEq, Repr

/-- The addTeam event corresponding to one call. -/
def addCallEvent (c : AddCall) : Event :=
  Event.addTeam (some { name := some c.name, color := c.color }) c.time c.rand

/-- The registry record that the addTeam handler creates for one call. -/
def addCallTeam (c : AddCall) : String × Team :=
  (generateId c.time c.rand,
    { id := generateId c.time c.rand, name := c.name,
      color := if strFalsy c.color then ("#000") else c.color.getD ("") })

/-! Lemmas about the base-36 rendering and injectivity of generateId. -/

theorem natToB36LE_zero : natToB36LE 0 = [] := by
  rw [natToB36LE]
  rfl

theorem natToB36LE_pos {n : Nat} (h : n ≠ 0) :
    natToB36LE n = base36Char (n % 36) :: natToB36LE (n / 36) := by
  rw [natToB36LE]
  simp [h]

theorem natToB36LE_eq_nil {n : Nat} (h : natToB36LE n = []) : n = 0 := by
  by_contra hn
  rw [natToB36LE_pos hn] at h
  exact List.cons_ne_nil _ _ h

theorem base36Char_injOn : ∀ a < 36, ∀ b < 36, base36Char a = base36Char b → a = b := by
  decide

theorem base36Char_ne_dash : ∀ a < 36, base36Char a ≠ '-' := by
  decide

theorem natToB36LE_inj : ∀ m n : Nat, natToB36LE m = natToB36LE n → m = n := by
  intro m
  induction m using Nat.strong_induction_on with
  | _ m ih =>
    intro n h
    by_cases hm : m = 0
    · subst hm
      rw [natToB36LE_zero] at h
      exact (natToB36LE_eq_nil h.symm).symm
    · by_cases hn : n = 0
      · subst hn
        rw [natToB36LE_zero] at h
        exact natToB36LE_eq_nil h
      · rw [natToB36LE_pos hm, natToB36LE_pos hn] at h
        have hhead := base36Char_injOn (m % 36) (Nat.mod_lt _ (by norm_num))
          (n % 36) (Nat.mod_lt _ (by norm_num)) (List.head_eq_of_cons_eq h)
        have htail := ih (m / 36) (Nat.div_lt_self (Nat.pos_of_ne_zero hm) (by norm_num))
          (n / 36) (List.tail_eq_of_cons_eq h)
        have hm36 := Nat.div_add_mod m 36
        have hn36 := Nat.div_add_mod n 36
        omega

theorem natToB36LE_ne_dash : ∀ n : Nat, '-' ∉ natToB36LE n := by
  intro n
  induction n using Nat.strong_induction_on with
  | _ n ih =>
    by_cases hn : n = 0
    · subst hn
      rw [natToB36LE_zero]
      exact List.not_mem_nil _
    · rw [natToB36LE_pos hn]
      intro hmem
      rcases List.mem_cons.mp hmem with hhd | htl
      · exact base36Char_ne_dash (n % 36) (Nat.mod_lt _ (by norm_num)) hhd.symm
      · exact ih (n / 36) (Nat.div_lt_self (Nat.pos_of_ne_zero hn) (by norm_num)) htl

theorem natToBase36_ne_dash (n : Nat) : '-' ∉ (natToBase36 n).data := by
  unfold natToBase36
  split
  · decide
  · intro hmem
    exact natToB36LE_ne_dash n (List.mem_reverse.mp hmem)

theorem natToBase36_inj : ∀ m n : Nat, natToBase36 m = natToBase36 n → m = n := by
  have key : ∀ n : Nat, n ≠ 0 → natToB36LE n ≠ ['0'] := by
    intro n hn hsing
    rw [natToB36LE_pos hn] at hsing
    have hhd := List.head_eq_of_cons_eq hsing
    have htl := List.tail_eq_of_cons_eq hsing
    have hdiv : n / 36 = 0 := natToB36LE_eq_nil htl
    have hmod : n % 36 = 0 := by
      have h0 : base36Char 0 = '0' := by decide
      exact base36Char_injOn (n % 36) (Nat.mod_lt _ (by norm_num)) 0 (by norm_num)
        (hhd.trans h0.symm)
    omega
  intro m n h
  unfold natToBase36 at h
  by_cases hm : m = 0
  · by_cases hn : n = 0
    · omega
    · exfalso
      simp only [hm, hn, if_pos, if_neg, ite_true, ite_false] at h
      have hdata : ['0'] = (natToB36LE n).reverse := congrArg String.data h
      have : natToB36LE n = ['0'] := by
        have := congrArg List.reverse hdata
        simpa using this.symm
      exact key n hn this
  · by_cases hn : n = 0
    · exfalso
      simp only [hm, hn, ite_true, ite_false] at h
      have hdata : (natToB36LE m).reverse = ['0'] := congrArg String.data h
      have : natToB36LE m = ['0'] := by
        have := congrArg List.reverse hdata
        simpa using this
      exact key m hm this
    · simp only [hm, hn, ite_false] at h
      have hdata : (natToB36LE m).reverse = (natToB36LE n).reverse := congrArg String.data h
      exact natToB36LE_inj m n (List.reverse_injective hdata)

theorem append_dash_inj :
    ∀ l1 l2 m1 m2 : List Char, '-' ∉ l1 → '-' ∉ l2 →
      l1 ++ '-' :: m1 = l2 ++ '-' :: m2 → l1 = l2 ∧ m1 = m2 := by
  intro l1
  induction l1 with
  | nil =>
    intro l2 m1 m2 _ h2 h
    cases l2 with
    | nil => simpa using h
    | cons c t =>
      exfalso
      have hc := List.head_eq_of_cons_eq h
      exact h2 (hc ▸ List.mem_cons_self c t)
  | cons c t ih =>
    intro l2 m1 m2 h1 h2 h
    cases l2 with
    | nil =>
      exfalso
      have hc := List.head_eq_of_cons_eq h
      exact h1 (hc ▸ List.mem_cons_self c t)
    | cons c2 t2 =>
      have hc := List.head_eq_of_cons_eq h
      have ht := List.tail_eq_of_cons_eq h
      have := ih t2 m1 m2 (fun hx => h1 (List.mem_cons_of_mem c hx))
        (fun hx => h2 (List.mem_cons_of_mem c2 hx)) ht
      exact ⟨by rw [hc, this.1], this.2⟩

theorem generateId_inj : Function.Injective (fun p : Nat × String => generateId p.1 p.2) := by
  intro p q h
  obtain ⟨t1, r1⟩ := p
  obtain ⟨t2, r2⟩ := q
  simp only [generateId] at h
  have hdata := congrArg String.data h
  simp only [String.data_append] at hdata
  simp only [List.append_assoc, List.singleton_append] at hdata
  have hsplit := append_dash_inj (natToBase36 t1).data (natToBase36 t2).data r1.data r2.data
    (natToBase36_ne_dash t1) (natToBase36_ne_dash t2) hdata
  have ht : t1 = t2 := natToBase36_inj t1 t2 (String.ext hsplit.1)
  have hr : r1 = r2 := String.ext hsplit.2
  rw [ht, hr]

/-! Characterization of the buzzerPress handler and preservation lemmas for
the reachable-state invariants. -/

theorem handleBuzzerPress_state (s : ServerState) (data : Option BuzzPayload) :
    (handleBuzzerPress s data).2.1 = s ∨
    ∃ tid team, data = some { tid := some tid } ∧
      readTeams s.teams tid = some team ∧ s.questionActive = true ∧
      s.ranked.find? (fun e => e.teamId == tid) = none ∧
      (handleBuzzerPress s data).2.1 =
        { s with ranked := s.ranked ++
            [{ teamId := tid, teamName := team.name, color := team.color,
               position := s.ranked.length + 1 }] } := by
  cases data with
  | none => exact Or.inl rfl
  | some d =>
    obtain ⟨dtid⟩ := d
    cases dtid with
    | none => left; simp [handleBuzzerPress, strFalsy]
    | some v =>
      by_cases hv : v = ""
      · left; simp [handleBuzzerPress, strFalsy, hv]
      · have hf : strFalsy (some v) = false := by simp [strFalsy, hv]
        cases hlook : readTeams s.teams v with
        | none => left; simp [handleBuzzerPress, hf, hlook]
        | some team =>
          by_cases hq : s.questionActive = true
          · cases hdup : s.ranked.find? (fun e => e.teamId == v) with
            | some e => left; simp [handleBuzzerPress, hf, hlook, hq, hdup]
            | none =>
              right
              refine ⟨v, team, rfl, hlook, hq, hdup, ?_⟩
              simp [handleBuzzerPress, hf, hlook, hq, hdup]
          · left
            have hq' : s.questionActive = false := by
              cases hb : s.questionActive
              · rfl
              · exact absurd hb hq
            simp [handleBuzzerPress, hf, hlook, hq']

theorem handleRegister_state (s : ServerState) (meta : ConnMeta)
    (payload : Option RegisterPayload) : (handleRegister s meta payload).1 = s := rfl

theorem handleAddTeam_ranked (s : ServerState) (data : Option AddTeamPayload)
    (t : Nat) (r : String) :
    (handleAddTeam s data t r).1.ranked = s.ranked ∧
    (handleAddTeam s data t r).1.questionActive = s.questionActive := by
  cases data with
  | none => exact ⟨rfl, rfl⟩
  | some d =>
    by_cases hf : strFalsy d.name
    · simp [handleAddTeam, hf]
    · simp [handleAddTeam, hf]

theorem step_positions {s : ServerState}
    (h : s.ranked.map BuzzEntry.position = List.range' 1 s.ranked.length) (e : Event) :
    (step s e).ranked.map BuzzEntry.position = List.range' 1 (step s e).ranked.length := by
  cases e with
  | register meta payload => simpa [step, handleRegister_state] using h
  | addTeam data t r =>
    have hr := (handleAddTeam_ranked s data t r).1
    simpa [step, hr] using h
  | clearAllTeams => simp [step, handleClearAllTeams]
  | startQuestion => simp [step, handleStartQuestion]
  | resetQuestion => simp [step, handleResetQuestion]
  | buzzerPress data =>
    rcases handleBuzzerPress_state s data with heq | ⟨tid, team, _, _, _, _, heq⟩
    · simpa [step, heq] using h
    · simp only [step, heq, List.map_append, List.length_append, List.map_cons, List.map_nil,
        List.length_cons, List.length_nil, h]
      rw [List.range'_1_concat]
      simp [Nat.add_comm]

theorem step_nodup {s : ServerState}
    (h : (s.ranked.map BuzzEntry.teamId).Nodup) (e : Event) :
    ((step s e).ranked.map BuzzEntry.teamId).Nodup := by
  cases e with
  | register meta payload => simpa [step, handleRegister_state] using h
  | addTeam data t r =>
    have hr := (handleAddTeam_ranked s data t r).1
    simpa [step, hr] using h
  | clearAllTeams => simp [step, handleClearAllTeams]
  | startQuestion => simp [step, handleStartQuestion]
  | resetQuestion => simp [step, handleResetQuestion]
  | buzzerPress data =>
    rcases handleBuzzerPress_state s data with heq | ⟨tid, team, _, _, _, hdup, heq⟩
    · simpa [step, heq] using h
    · have hnotmem : tid ∉ s.ranked.map BuzzEntry.teamId := by
        intro hmem
        rcases List.mem_map.mp hmem with ⟨e0, he0, hid⟩
        have := List.find?_eq_none.mp hdup e0 he0
        simp [hid] at this
      simp only [step, heq, List.map_append, List.map_cons, List.map_nil]
      exact List.Nodup.append h (List.nodup_singleton tid)
        (by simpa [List.disjoint_singleton] using hnotmem)

theorem step_idle {s : ServerState}
    (h : s.questionActive = false → s.ranked = []) (e : Event) :
    (step s e).questionActive = false → (step s e).ranked = [] := by
  cases e with
  | register meta payload => simpa [step, handleRegister_state] using h
  | addTeam data t r =>
    have hr := handleAddTeam_ranked s data t r
    intro hq
    simp only [step] at hq ⊢
    rw [hr.1]
    exact h (by rw [← hr.2]; exact hq)
  | clearAllTeams => simp [step, handleClearAllTeams]
  | startQuestion => simp [step, handleStartQuestion]
  | resetQuestion => simp [step, handleResetQuestion]
  | buzzerPress data =>
    rcases handleBuzzerPress_state s data with heq | ⟨tid, team, _, _, hq, _, heq⟩
    · simpa [step, heq] using h
    · simp [step, heq, hq]




theorem buzz_mem_noop (s : ServerState) (tid : String)
    (hmem : tid ∈ s.ranked.map BuzzEntry.teamId) :
    step s (Event.buzzerPress (some { tid := some tid })) = s := by
  rcases handleBuzzerPress_state s (some { tid := some tid }) with heq |
    ⟨tid2, team, hdata, _, _, hdup, _⟩
  · exact heq
  · exfalso
    have htid : tid2 = tid := by
      have := congrArg (fun o => (Option.getD o { tid := none }).tid) hdata
      simpa using this.symm
    subst htid
    rcases List.mem_map.mp hmem with ⟨e0, he0, hid⟩
    have := List.find?_eq_none.mp hdup e0 he0
    simp [hid] at this

theorem find?_isSome_eq_any (l : List BuzzEntry) (p : BuzzEntry → Bool) :
    (l.find? p).isSome = l.any p := by
  induction l with
  | nil => rfl
  | cons a rest ih =>
    by_cases hp : p a = true
    · simp [List.find?, hp]
    · simp only [Bool.not_eq_true] at hp
      simp [List.find?, hp, ih]

/-! Claim theorems. -/

/-- Claim C1 (code bug): the handler does not implement the spec algorithm
for every teamId, because the unknown-team check is the truthiness test
if (!team) on the prototype-chain property read teams[tid].  With an empty
registry and an active round, a buzz for the inherited key constructor is
accepted at position 1 and an entry with teamName Object and undefined color
is appended, while the submitBuzz algorithm of the spec rejects it as
UnknownTeam (spec section 8: an id absent from the Team Registry is always
rejected with UnknownTeam). -/
theorem buzzerPress_proto_key_accepted :
    (handleBuzzerPress (run [Event.startQuestion])
        (some { tid := some ("constructor") })).1 = BuzzResult.accepted 1 ∧
    (handleBuzzerPress (run [Event.startQuestion])
        (some { tid := some ("constructor") })).2.1.ranked =
      [{ teamId := ("constructor"), teamName := some ("Object"), color := none,
         position := 1 }] ∧
    (submitBuzzSpec (run [Event.startQuestion]) ("constructor")).1 =
      BuzzResult.unknownTeam := by
  decide

/-- Claim C2: in every reachable state, the positions of the current ranked
sequence are exactly 1, 2, 3, ... in order. -/
theorem ranking_positions_canonical (evs : List Event) :
    (run evs).ranked.map BuzzEntry.position = List.range' 1 (run evs).ranked.length := by
  have main : ∀ (l : List Event) (s : ServerState),
      s.ranked.map BuzzEntry.position = List.range' 1 s.ranked.length →
      (l.foldl step s).ranked.map BuzzEntry.position =
        List.range' 1 (l.foldl step s).ranked.length := by
    intro l
    induction l with
    | nil => intro s h; exact h
    | cons e rest ih => intro s h; exact ih (step s e) (step_positions h e)
  exact main evs initState (by simp [initState])

/-- Claim C3: in every reachable state the teamIds of the ranked sequence are
pairwise distinct, and a buzzerPress for a teamId that already has an entry
leaves the state unchanged. -/
theorem ranking_teamIds_distinct (evs : List Event) :
    ((run evs).ranked.map BuzzEntry.teamId).Nodup ∧
    ∀ tid, tid ∈ (run evs).ranked.map BuzzEntry.teamId →
      step (run evs) (Event.buzzerPress (some { tid := some tid })) = run evs := by
  constructor
  · have main : ∀ (l : List Event) (s : ServerState),
        (s.ranked.map BuzzEntry.teamId).Nodup →
        ((l.foldl step s).ranked.map BuzzEntry.teamId).Nodup := by
      intro l
      induction l with
      | nil => intro s h; exact h
      | cons e rest ih => intro s h; exact ih (step s e) (step_nodup h e)
    exact main evs initState (by simp [initState])
  · intro tid hmem
    exact buzz_mem_noop (run evs) tid hmem

/-- Witness for C3: after adding a team, starting the round and letting it
buzz, its id is in the ranking and a repeated buzz changes nothing. -/
theorem ranking_teamIds_distinct_witness :
    ((run [Event.addTeam (some { name := some ("A"), color := none }) 0 ("a"),
           Event.startQuestion,
           Event.buzzerPress (some { tid := some ("0-a") })]).ranked.map
        BuzzEntry.teamId).Nodup ∧
    step (run [Event.addTeam (some { name := some ("A"), color := none }) 0 ("a"),
           Event.startQuestion,
           Event.buzzerPress (some { tid := some ("0-a") })])
        (Event.buzzerPress (some { tid := some ("0-a") })) =
      run [Event.addTeam (some { name := some ("A"), color := none }) 0 ("a"),
           Event.startQuestion,
           Event.buzzerPress (some { tid := some ("0-a") })] :=
  ⟨(ranking_teamIds_distinct _).1, (ranking_teamIds_distinct _).2 ("0-a") (by decide)⟩

/-- Claim C5 (amended): any buzzerPress while the round is not active leaves
the state unchanged; when its tid is well-formed and the property read
teams[tid] is truthy — an own registry record or an inherited
Object.prototype key — the firing branch is the round-not-active rejection,
and when the read is falsy the firing branch is the unknown-team rejection. -/
theorem buzzerPress_idle_rejected (s : ServerState) (data : Option BuzzPayload)
    (hq : s.questionActive = false) :
    (handleBuzzerPress s data).2.1 = s ∧
    (∀ tid team, data = some { tid := some tid } → tid ≠ ("") →
      readTeams s.teams tid = some team →
      (handleBuzzerPress s data).1 = BuzzResult.roundNotActive) ∧
    (∀ tid, data = some { tid := some tid } → tid ≠ ("") →
      readTeams s.teams tid = none →
      (handleBuzzerPress s data).1 = BuzzResult.unknownTeam) := by
  refine ⟨?_, ?_, ?_⟩
  · rcases handleBuzzerPress_state s data with heq | ⟨tid, team, _, _, hq2, _, _⟩
    · exact heq
    · rw [hq] at hq2
      exact absurd hq2 (by simp)
  · intro tid team hdata htid hlook
    subst hdata
    have hf : strFalsy (some tid) = false := by simp [strFalsy, htid]
    simp [handleBuzzerPress, hf, hlook, hq]
  · intro tid hdata htid hlook
    subst hdata
    have hf : strFalsy (some tid) = false := by simp [strFalsy, htid]
    simp [handleBuzzerPress, hf, hlook]

/-- Witness for C5 (amended): while the round is idle, a registered team and
the inherited constructor key are both rejected at the round-not-active
branch, an id absent from registry and prototype alike is rejected at the
unknown-team branch, and the state is kept. -/
theorem buzzerPress_idle_rejected_witness :
    ((handleBuzzerPress
        { teams := [(("a"), { id := ("a"), name := ("A"), color := ("#f00") })],
          ranked := [], questionActive := false } (some { tid := some ("a") })).2.1 =
      { teams := [(("a"), { id := ("a"), name := ("A"), color := ("#f00") })],
        ranked := [], questionActive := false }) ∧
    (handleBuzzerPress
        { teams := [(("a"), { id := ("a"), name := ("A"), color := ("#f00") })],
          ranked := [], questionActive := false } (some { tid := some ("a") })).1 =
      BuzzResult.roundNotActive ∧
    (handleBuzzerPress
        { teams := [(("a"), { id := ("a"), name := ("A"), color := ("#f00") })],
          ranked := [], questionActive := false } (some { tid := some ("constructor") })).1 =
      BuzzResult.roundNotActive ∧
    (handleBuzzerPress
        { teams := [(("a"), { id := ("a"), name := ("A"), color := ("#f00") })],
          ranked := [], questionActive := false } (some { tid := some ("z") })).1 =
      BuzzResult.unknownTeam := by
  have h1 := buzzerPress_idle_rejected
    { teams := [(("a"), { id := ("a"), name := ("A"), color := ("#f00") })],
      ranked := [], questionActive := false } (some { tid := some ("a") }) (by decide)
  have h2 := buzzerPress_idle_rejected
    { teams := [(("a"), { id := ("a"), name := ("A"), color := ("#f00") })],
      ranked := [], questionActive := false } (some { tid := some ("constructor") }) (by decide)
  have h3 := buzzerPress_idle_rejected
    { teams := [(("a"), { id := ("a"), name := ("A"), color := ("#f00") })],
      ranked := [], questionActive := false } (some { tid := some ("z") }) (by decide)
  refine ⟨h1.1, ?_, ?_, ?_⟩
  · exact h1.2.1 ("a") { name := some ("A"), color := some ("#f00") } rfl (by decide) (by decide)
  · exact h2.2.1 ("constructor") { name := some ("Object"), color := none } rfl
      (by decide) (by decide)
  · exact h3.2.2 ("z") rfl (by decide) (by decide)

/-- Counterexample for C5 as stated: with an empty registry and an idle
round, a buzz for an unknown teamId fires the unknown-team rejection, not the
round-not-active one. -/
theorem buzzerPress_idle_unknown_not_roundNotActive :
    initState.questionActive = false ∧
    (handleBuzzerPress initState (some { tid := some ("x") })).1 = BuzzResult.unknownTeam ∧
    (handleBuzzerPress initState (some { tid := some ("x") })).1 ≠ BuzzResult.roundNotActive := by
  decide

/-- Claim C6: whenever buzzerPress does not accept, the authoritative state
is unchanged and nothing is emitted to any client. -/
theorem buzzerPress_reject_silent (s : ServerState) (data : Option BuzzPayload)
    (h : (handleBuzzerPress s data).1.isAccepted = false) :
    (handleBuzzerPress s data).2.1 = s ∧ (handleBuzzerPress s data).2.2 = [] := by
  cases data with
  | none => exact ⟨rfl, rfl⟩
  | some d =>
    obtain ⟨dtid⟩ := d
    cases dtid with
    | none => simp [handleBuzzerPress, strFalsy]
    | some v =>
      by_cases hv : v = ""
      · simp [handleBuzzerPress, strFalsy, hv]
      · have hf : strFalsy (some v) = false := by simp [strFalsy, hv]
        cases hlook : readTeams s.teams v with
        | none => simp [handleBuzzerPress, hf, hlook]
        | some team =>
          cases hq : s.questionActive with
          | false => simp [handleBuzzerPress, hf, hlook, hq]
          | true =>
            cases hdup : (s.ranked.find? (fun e => e.teamId == v)).isSome with
            | true => simp [handleBuzzerPress, hf, hlook, hq, hdup]
            | false =>
              exfalso
              simp [handleBuzzerPress, hf, hlook, hq, hdup, BuzzResult.isAccepted] at h

/-- Witness for C6: a malformed buzz payload in the initial state is dropped
with no state change and no emission. -/
theorem buzzerPress_reject_silent_witness :
    (handleBuzzerPress initState none).1.isAccepted = false ∧
    (handleBuzzerPress initState none).2.1 = initState ∧
    (handleBuzzerPress initState none).2.2 = [] := by
  have h := buzzerPress_reject_silent initState none (by decide)
  exact ⟨by decide, h.1, h.2⟩

/-- Claim C7: clearAllTeams, from any prior state, empties the registry,
marks the round idle, and empties the ranked sequence. -/
theorem clearAllTeams_resets (s : ServerState) :
    (handleClearAllTeams s).1.teams = [] ∧
    (handleClearAllTeams s).1.questionActive = false ∧
    (handleClearAllTeams s).1.ranked = [] :=
  ⟨rfl, rfl, rfl⟩

/-- Claim C8: in every reachable state, if the round is idle the ranked
sequence is empty. -/
theorem idle_ranking_empty (evs : List Event)
    (h : (run evs).questionActive = false) : (run evs).ranked = [] := by
  have main : ∀ (l : List Event) (s : ServerState),
      (s.questionActive = false → s.ranked = []) →
      ((l.foldl step s).questionActive = false → (l.foldl step s).ranked = []) := by
    intro l
    induction l with
    | nil => intro s h'; exact h'
    | cons e rest ih => intro s h'; exact ih (step s e) (step_idle h' e)
  exact main evs initState (fun _ => rfl) h

/-- Witness for C8: after a start followed by a reset the round is idle and
the ranking is empty. -/
theorem idle_ranking_empty_witness :
    (run [Event.startQuestion, Event.resetQuestion]).questionActive = false ∧
    (run [Event.startQuestion, Event.resetQuestion]).ranked = [] :=
  ⟨by decide, idle_ranking_empty [Event.startQuestion, Event.resetQuestion] (by decide)⟩

/-- Claim C9: register, in any state, leaves the authoritative state
untouched and sends the registering connection the current team list, the
current ranking, and the round-phase signal matching the active flag. -/
theorem register_sends_snapshot (s : ServerState) (meta : ConnMeta)
    (payload : Option RegisterPayload) :
    (handleRegister s meta payload).1 = s ∧
    (handleRegister s meta payload).2.2 =
      [(Target.toSender, Msg.teamListUpdate s.teams),
       (Target.toSender, Msg.buzzerResult s.ranked),
       (Target.toSender, if s.questionActive then Msg.questionStarted else Msg.questionReset)] :=
  ⟨rfl, rfl⟩

/-- Claim C10: an addTeam event with a missing payload, a missing name field,
or an empty-string name is a silent no-op: the state is returned unchanged
and nothing is emitted. -/
theorem addTeam_invalid_noop (s : ServerState) (t : Nat) (r : String) (c : Option String) :
    handleAddTeam s none t r = (s, []) ∧
    handleAddTeam s (some { name := none, color := c }) t r = (s, []) ∧
    handleAddTeam s (some { name := some (""), color := c }) t r = (s, []) := by
  refine ⟨rfl, ?_, ?_⟩ <;> simp [handleAddTeam, strFalsy]

theorem insertTeam_not_mem (l : List (String × Team)) (id : String) (tm : Team)
    (h : id ∉ l.map Prod.fst) : insertTeam l id tm = l ++ [(id, tm)] := by
  induction l with
  | nil => rfl
  | cons p rest ih =>
    obtain ⟨k, v⟩ := p
    simp only [List.map_cons, List.mem_cons] at h
    push_neg at h
    have hk : (k == id) = false := by
      simp only [beq_eq_false_iff_ne, ne_eq]
      exact fun he => h.1 he.symm
    simp [insertTeam, hk, ih h.2]

theorem addRun_teams : ∀ (calls : List AddCall) (s : ServerState),
    (∀ c ∈ calls, c.name ≠ ("")) →
    ((calls.map (fun c => (c.time, c.rand))).Nodup) →
    (∀ c ∈ calls, generateId c.time c.rand ∉ s.teams.map Prod.fst) →
    ((calls.map addCallEvent).foldl step s).teams = s.teams ++ calls.map addCallTeam := by
  intro calls
  induction calls with
  | nil => intro s _ _ _; simp
  | cons c rest ih =>
    intro s hname hnd hfresh
    have hcname : strFalsy (some c.name) = false := by
      simp [strFalsy, hname c (List.mem_cons_self c rest)]
    have hstep : step s (addCallEvent c) = { s with teams := s.teams ++ [addCallTeam c] } := by
      simp only [step, addCallEvent, handleAddTeam, hcname, Bool.false_eq_true, if_false,
        Option.getD_some]
      rw [insertTeam_not_mem s.teams (generateId c.time c.rand) _
        (hfresh c (List.mem_cons_self c rest))]
      rfl
    have hnd2 : ((c.time, c.rand) ∉ rest.map (fun c3 => (c3.time, c3.rand))) ∧
        (rest.map (fun c3 => (c3.time, c3.rand))).Nodup := by
      rw [List.map_cons] at hnd
      exact List.nodup_cons.mp hnd
    have hfresh2 : ∀ c2 ∈ rest, generateId c2.time c2.rand ∉
        ({ s with teams := s.teams ++ [addCallTeam c] } : ServerState).teams.map Prod.fst := by
      intro c2 hc2
      simp only [List.map_append, List.mem_append, addCallTeam, List.map_cons, List.map_nil,
        List.mem_cons, List.not_mem_nil, or_false]
      rintro (hin | hhd)
      · exact hfresh c2 (List.mem_cons_of_mem c hc2) hin
      · have hpair : (c2.time, c2.rand) = (c.time, c.rand) :=
          @generateId_inj (c2.time, c2.rand) (c.time, c.rand) hhd
        exact hnd2.1 (by
          have : (c2.time, c2.rand) ∈ rest.map (fun c3 => (c3.time, c3.rand)) :=
            List.mem_map.mpr ⟨c2, hc2, rfl⟩
          rwa [hpair] at this)
    have hrest := ih ({ s with teams := s.teams ++ [addCallTeam c] })
      (fun c2 hc2 => hname c2 (List.mem_cons_of_mem c hc2)) hnd2.2 hfresh2
    simp only [List.map_cons, List.foldl_cons, hstep, hrest]
    simp

/-- Counterexample for C4 as stated: two addTeam calls for which the
environment repeats the same Date.now value and the same random suffix
generate the same id, so the second insertion overwrites the first and the
registry holds one record after two calls, not two. -/
theorem addTeam_id_collision :
    (run [Event.addTeam (some { name := some ("A"), color := none }) 0 ("x"),
          Event.addTeam (some { name := some ("B"), color := none }) 0 ("x")]).teams.length = 1 ∧
    (run [Event.addTeam (some { name := some ("A"), color := none }) 0 ("x"),
          Event.addTeam (some { name := some ("B"), color := none }) 0 ("x")]).teams.length ≠ 2 := by
  decide

/-- Claim C4 (amended): for every sequence of addTeam calls with non-empty
names in which no two calls consume the same (Date.now, random-suffix)
environment pair, the registry afterwards holds exactly one record per call,
in call order, and the generated ids are pairwise distinct. -/
theorem addTeam_registry_faithful (calls : List AddCall)
    (hname : ∀ c ∈ calls, c.name ≠ (""))
    (hnd : (calls.map (fun c => (c.time, c.rand))).Nodup) :
    (run (calls.map addCallEvent)).teams = calls.map addCallTeam ∧
    (run (calls.map addCallEvent)).teams.length = calls.length ∧
    ((run (calls.map addCallEvent)).teams.map Prod.fst).Nodup := by
  have h := addRun_teams calls initState hname hnd (by intro c _; simp [initState])
  have hteams : (run (calls.map addCallEvent)).teams = calls.map addCallTeam := by
    simpa [run, initState] using h
  refine ⟨hteams, by simp [hteams], ?_⟩
  rw [hteams]
  have hfst : (calls.map addCallTeam).map Prod.fst =
      (calls.map (fun c => (c.time, c.rand))).map (fun p => generateId p.1 p.2) := by
    simp [addCallTeam, Function.comp]
  rw [hfst]
  exact List.Nodup.map generateId_inj hnd

/-- Witness for C4 (amended): two calls with distinct random suffixes yield
two records with distinct ids. -/
theorem addTeam_registry_faithful_witness :
    (run [addCallEvent { name := ("A"), color := none, time := 0, rand := ("a") },
          addCallEvent { name := ("B"), color := none, time := 0, rand := ("b") }]).teams.length
      = 2 ∧
    ((run [addCallEvent { name := ("A"), color := none, time := 0, rand := ("a") },
           addCallEvent { name := ("B"), color := none, time := 0, rand := ("b") }]).teams.map
        Prod.fst).Nodup := by
  have h := addTeam_registry_faithful
    [{ name := ("A"), color := none, time := 0, rand := ("a") },
     { name := ("B"), color := none, time := 0, rand := ("b") }]
    (by decide) (by decide)
  exact ⟨h.2.1, h.2.2⟩

end QuizBuzzer
